import Mathlib

/-!
Verification of the EatAlyzer upload-to-result state machine and its
response-shaping transforms, shallowly embedded from the two source files:
the page component (upload session state, `handleFileChange`,
`handleAnalyze`, `prepareNutritionData`, `prepareFatsData`) and
`src/app/api/analyze.ts` (`analyzeFoodImage`, `fileToBase64`).
-/

namespace EatAlyzer

/-! ## JSON values

Model of the JavaScript JSON value universe, as produced by `JSON.parse`.
Numbers are modelled as rationals (the source performs no arithmetic on
them, only field copying, so the exact numeric carrier is irrelevant to
every property proved below). -/

/-- JSON value tree as produced by the platform `JSON.parse`. -/
inductive Json where
  | null
  | bool (b : Bool)
  | num (q : Rat)
  | str (s : String)
  | arr (elems : List Json)
  | obj (fields : List (String × Json))

/-- Whitespace accepted between JSON tokens. -/
def isJsonWs (c : Char) : Bool :=
  c = ' ' || c = '\t' || c = '\n' || c = '\r'

/-- Drops leading JSON whitespace. -/
def skipWs (cs : List Char) : List Char := cs.dropWhile isJsonWs

/-- Escape sequences recognised inside JSON string literals.  Model of the
platform behaviour restricted to the escapes that occur in this
development (`\u` escapes are not modelled; no property below depends on
them). -/
def escChar (c : Char) : Option Char :=
  if c = '\"' then some '\"'
  else if c = '\\' then some '\\'
  else if c = '/' then some '/'
  else if c = 'n' then some '\n'
  else if c = 't' then some '\t'
  else if c = 'r' then some '\r'
  else none

/-- Reads the body of a JSON string literal (the opening quote already
consumed), returning the decoded characters and the remaining input. -/
def parseStringChars : List Char → Option (List Char × List Char)
  | [] => none
  | '\"' :: rest => some ([], rest)
  | '\\' :: e :: rest =>
    match escChar e with
    | some c => (parseStringChars rest).map (fun p => (c :: p.1, p.2))
    | none => none
  | c :: rest => (parseStringChars rest).map (fun p => (c :: p.1, p.2))

/-- Folds decimal digits onto an accumulator. -/
def digitsToNat (acc : Nat) : List Char → Nat
  | [] => acc
  | c :: cs => digitsToNat (acc * 10 + (c.toNat - '0'.toNat)) cs

/-- Reads a JSON number (optional sign, integer part, optional fraction;
exponents are not modelled — no property below depends on them). -/
def parseNumber (cs : List Char) : Option (Json × List Char) :=
  let signed : Bool × List Char :=
    match cs with
    | '-' :: t => (true, t)
    | _ => (false, cs)
  let neg := signed.1
  let cs1 := signed.2
  let intDigits := cs1.takeWhile Char.isDigit
  let cs2 := cs1.dropWhile Char.isDigit
  if intDigits.isEmpty then none
  else
    let ipart : Rat := (digitsToNat 0 intDigits : Nat)
    match cs2 with
    | '.' :: cs3 =>
      let fracDigits := cs3.takeWhile Char.isDigit
      let cs4 := cs3.dropWhile Char.isDigit
      if fracDigits.isEmpty then none
      else
        let fpart : Rat := (digitsToNat 0 fracDigits : Nat)
        let q : Rat := ipart + fpart / ((10 : Rat) ^ fracDigits.length)
        some (Json.num (if neg then -q else q), cs4)
    | _ => some (Json.num (if neg then -ipart else ipart), cs2)

/-- Recursive-descent JSON reader with explicit fuel (fuel only bounds the
recursion depth; `jsonParse` supplies enough for any input).  Array and
object continuations after a comma are parsed by re-entering the opening
bracket with the remaining input; a continuation must contribute at least
one further element, which rejects trailing commas exactly as the platform
parser does. -/
def parseVal : Nat → List Char → Option (Json × List Char)
  | 0, _ => none
  | fuel + 1, cs =>
    match skipWs cs with
    | 'n' :: 'u' :: 'l' :: 'l' :: rest => some (Json.null, rest)
    | 't' :: 'r' :: 'u' :: 'e' :: rest => some (Json.bool true, rest)
    | 'f' :: 'a' :: 'l' :: 's' :: 'e' :: rest => some (Json.bool false, rest)
    | '\"' :: rest =>
      (parseStringChars rest).map (fun p => (Json.str (String.mk p.1), p.2))
    | '[' :: rest =>
      (match skipWs rest with
       | ']' :: rest2 => some (Json.arr [], rest2)
       | rest1 =>
         match parseVal fuel rest1 with
         | none => none
         | some (j, rest2) =>
           match skipWs rest2 with
           | ',' :: rest3 =>
             (match parseVal fuel ('[' :: rest3) with
              | some (Json.arr (x :: xs), rest4) =>
                some (Json.arr (j :: x :: xs), rest4)
              | _ => none)
           | ']' :: rest3 => some (Json.arr [j], rest3)
           | _ => none)
    | '\x7b' :: rest =>
      (match skipWs rest with
       | '\x7d' :: rest2 => some (Json.obj [], rest2)
       | '\"' :: rest1 =>
         (match parseStringChars rest1 with
          | none => none
          | some (k, rest2) =>
            match skipWs rest2 with
            | ':' :: rest3 =>
              (match parseVal fuel rest3 with
               | none => none
               | some (v, rest4) =>
                 match skipWs rest4 with
                 | ',' :: rest5 =>
                   (match parseVal fuel ('\x7b' :: rest5) with
                    | some (Json.obj (f :: fs), rest6) =>
                      some (Json.obj ((String.mk k, v) :: f :: fs), rest6)
                    | _ => none)
                 | '\x7d' :: rest5 => some (Json.obj [(String.mk k, v)], rest5)
                 | _ => none)
            | _ => none)
       | _ => none)
    | rest => parseNumber rest

/-- Model of the platform `JSON.parse`: reads one JSON value and requires
only whitespace to remain. -/
def jsonParse (s : String) : Option Json :=
  match parseVal (2 * s.data.length + 2) s.data with
  | some (j, rest) => if (skipWs rest).isEmpty then some j else none
  | none => none

/-! ## Nutrition analysis record

Embedding of the `FoodAnalysisResponse` interface declared identically in
both source files. -/

/-- Fats block of `nutritionalInfo`. -/
structure Fats where
  total : Rat
  saturated : Rat
  unsaturated : Rat
  trans : Rat
deriving DecidableEq

/-- Nested `nutritionalInfo` object. -/
structure NutritionalInfo where
  fats : Fats
  protein : Rat
  carbohydrates : Rat
  sugar : Rat
  fiber : Rat
deriving DecidableEq

/-- Nested `healthAssessment` object. -/
structure HealthAssessment where
  isHealthy : Bool
  recommendedConsumption : String
  warnings : List String
  benefits : List String
deriving DecidableEq

/-- The typed nutrition-analysis record (`FoodAnalysisResponse`). -/
structure FoodAnalysisResponse where
  calories : Rat
  contents : List String
  nutritionalInfo : NutritionalInfo
  healthAssessment : HealthAssessment
deriving DecidableEq

/-! ## Files and the image encoder -/

/-- Browser `File` handle: the declared media type (the `type` property)
and the underlying bytes.  Per the File API, `type` is a parsable MIME
type string (see `mimeWf`). -/
structure File where
  type : String
  bytes : List Nat
deriving DecidableEq

/-- Base64 alphabet used by the platform `btoa`/data-URL encoding. -/
def b64Alpha : List Char :=
  "ABCDEFGHIJKLMNOPQRSTUVWXYZabcdefghijklmnopqrstuvwxyz0123456789+/".data

/-- Character of the base64 alphabet at a sextet index. -/
def b64Char (n : Nat) : Char :=
  match b64Alpha.get? n with
  | some c => c
  | none => 'A'

/-- Standard base64 of a byte sequence (three bytes to four sextets, with
`=` padding), as produced inside the data URL of `FileReader.readAsDataURL`. -/
def base64Encode : List Nat → List Char
  | [] => []
  | [b1] => [b64Char (b1 / 4 % 64), b64Char (b1 % 4 * 16), '=', '=']
  | [b1, b2] =>
    [b64Char (b1 / 4 % 64), b64Char (b1 % 4 * 16 + b2 / 16),
     b64Char (b2 % 16 * 4), '=']
  | b1 :: b2 :: b3 :: rest =>
    b64Char (b1 / 4 % 64) :: b64Char (b1 % 4 * 16 + b2 / 16) ::
      b64Char (b2 % 16 * 4 + b3 / 64) :: b64Char (b3 % 64) ::
        base64Encode rest

/-- Character list of the data URL yielded by
`FileReader.readAsDataURL(file)`: the string
`data:<media type>;base64,<base64 of the bytes>` (written here with the
mandatory comma made explicit for the payload). -/
def dataURLChars (f : File) : List Char :=
  ("data:".data ++ f.type.data ++ ";base64".data) ++ ',' :: base64Encode f.bytes

/-- Model of `FileReader.readAsDataURL`, the read used both for the
preview (`handleFileChange`) and for the transport encoding
(`fileToBase64`).  The asynchronous `onload` completion is modelled as
part of the same step; no property below depends on the interleaving. -/
def readAsDataURL (f : File) : String := String.mk (dataURLChars f)

/-- Model of JavaScript `String.prototype.split` with a single-character
separator: `"a,,b".split(',')` is `["a", "", "b"]` and `"".split(',')`
is `[""]`. -/
def jsSplit (sep : Char) : List Char → List (List Char)
  | [] => [[]]
  | c :: rest =>
    if c = sep then [] :: jsSplit sep rest
    else
      match jsSplit sep rest with
      | [] => [[c]]
      | g :: gs => (c :: g) :: gs

/-- Embedding of `fileToBase64` from `src/app/api/analyze.ts`: reads the
file as a data URL and takes `split(',')[1]`, i.e. the segment between
the first and second comma (`none` models JavaScript `undefined` when no
comma exists). -/
def fileToBase64 (f : File) : Option String :=
  ((jsSplit ',' (readAsDataURL f).data).get? 1).map String.mk

/-- Model of JavaScript `String.prototype.startsWith` on the character
lists of the two strings. -/
def jsStartsWith (s pre : String) : Bool := pre.data.isPrefixOf s.data

/-- Well-formedness of a `File.type` string, modelled from the File API
and the MIME grammar: media types are built from registered-name
characters plus the type separator, none of which is a comma. -/
def mimeWf (t : String) : Bool :=
  t.data.all (fun c =>
    c.isAlphanum || c = '/' || c = '+' || c = '-' || c = '.' || c = '_')

/-- Spec-side description of the transport encoding ("the preview's
data-URL with the prefix up to and including the first comma removed"),
stated from the spec's words for comparison with `fileToBase64`. -/
def afterFirstComma (s : String) : String :=
  String.mk ((s.data.dropWhile (fun c => c != ',')).drop 1)

/-! ## Analysis client (`src/app/api/analyze.ts`) -/

/-- Looks up a key in a JSON object (model of JavaScript property access
on a parsed JSON value); any access on a non-object fails. -/
def getField : Json → String → Option Json
  | Json.obj fields, k => (fields.find? (fun p => p.1 = k)).map (fun p => p.2)
  | _, _ => none

/-- Embedding of the fixed-path extraction
`response.data.choices[0].message.content` from `analyzeFoodImage`: the
path must exist and `content` must be a string (any JavaScript `TypeError`
raised by a missing step is caught by the surrounding `try`). -/
def extractContent (data : Json) : Option String :=
  match getField data "choices" with
  | some (Json.arr (c0 :: _)) =>
    (match getField c0 "message" with
     | some m =>
       (match getField m "content" with
        | some (Json.str s) => some s
        | _ => none)
     | none => none)
  | _ => none

/-- Embedding of `analyzeFoodImage` from `src/app/api/analyze.ts`.  The
outcome of the axios POST is passed explicitly: `Except.error ()` models
an HTTP/network rejection, `Except.ok data` a resolved response whose
body is `data`.  Every exception inside the `try` block (network
rejection, a `TypeError` from the fixed-path access, a `SyntaxError` from
`JSON.parse`) is caught and collapsed into the single
`new Error("Failed to analyze food image")`, modelled as `Except.error ()`.
The parsed JSON content is returned as-is: the source's
`as FoodAnalysisResponse` is a compile-time cast that performs no runtime
shape validation. -/
def analyzeFoodImage (imageFile : File) (net : Except Unit Json) :
    Except Unit Json :=
  match net with
  | Except.error _ => Except.error ()
  | Except.ok data =>
    match extractContent data with
    | none => Except.error ()
    | some content =>
      match jsonParse content with
      | none => Except.error ()
      | some j => Except.ok j

/-- Numeric JSON field accessor used by `decodeNutrition`. -/
def asRat : Json → Option Rat
  | Json.num q => some q
  | _ => none

/-- String JSON field accessor used by `decodeNutrition`. -/
def asStr : Json → Option String
  | Json.str s => some s
  | _ => none

/-- Boolean JSON field accessor used by `decodeNutrition`. -/
def asBool : Json → Option Bool
  | Json.bool b => some b
  | _ => none

/-- String-array JSON field accessor used by `decodeNutrition`. -/
def asStrList : Json → Option (List String)
  | Json.arr xs => xs.mapM asStr
  | _ => none

/-- Reads the fats block of the `NutritionAnalysis` shape. -/
def decodeFats (j : Json) : Option Fats :=
  ((getField j "total").bind asRat).bind (fun total =>
  ((getField j "saturated").bind asRat).bind (fun saturated =>
  ((getField j "unsaturated").bind asRat).bind (fun unsaturated =>
  ((getField j "trans").bind asRat).map (fun trans =>
    { total := total, saturated := saturated,
      unsaturated := unsaturated, trans := trans }))))

/-- Reads the `nutritionalInfo` block of the `NutritionAnalysis` shape. -/
def decodeNutritionalInfo (j : Json) : Option NutritionalInfo :=
  ((getField j "fats").bind decodeFats).bind (fun fats =>
  ((getField j "protein").bind asRat).bind (fun protein =>
  ((getField j "carbohydrates").bind asRat).bind (fun carbohydrates =>
  ((getField j "sugar").bind asRat).bind (fun sugar =>
  ((getField j "fiber").bind asRat).map (fun fiber =>
    { fats := fats, protein := protein, carbohydrates := carbohydrates,
      sugar := sugar, fiber := fiber })))))

/-- Reads the `healthAssessment` block of the `NutritionAnalysis` shape. -/
def decodeHealthAssessment (j : Json) : Option HealthAssessment :=
  ((getField j "isHealthy").bind asBool).bind (fun isHealthy =>
  ((getField j "recommendedConsumption").bind asStr).bind (fun rc =>
  ((getField j "warnings").bind asStrList).bind (fun warnings =>
  ((getField j "benefits").bind asStrList).map (fun benefits =>
    { isHealthy := isHealthy, recommendedConsumption := rc,
      warnings := warnings, benefits := benefits }))))

/-- Decodes a JSON value into the `NutritionAnalysis` shape.

Modelled from the spec: the source contains no such decoder (its
`as FoodAnalysisResponse` cast is erased at runtime); this definition
follows §3's record shape word for word and exists only to compare the
client's actual behaviour with the spec's description of it. -/
def decodeNutrition (j : Json) : Option FoodAnalysisResponse :=
  ((getField j "calories").bind asRat).bind (fun calories =>
  ((getField j "contents").bind asStrList).bind (fun contents =>
  ((getField j "nutritionalInfo").bind decodeNutritionalInfo).bind (fun ni =>
  ((getField j "healthAssessment").bind decodeHealthAssessment).map (fun ha =>
    { calories := calories, contents := contents,
      nutritionalInfo := ni, healthAssessment := ha }))))

/-! ## Presentation controller (page component)

The five `useState` fields of `FoodAnalysisApp` form the upload session.
Each event handler is embedded as a function from session to session,
paired with the list of observable side effects it performs (file reads
and network calls), so that "no encoding is produced" and "no network
call is made" are provable statements. -/

/-- The five state hooks of `FoodAnalysisApp`. -/
structure UploadSession where
  selectedFile : Option File
  imagePreview : Option String
  analysisResult : Option FoodAnalysisResponse
  isLoading : Bool
  error : Option String
deriving DecidableEq

/-- Initial session: `useState(null)` four times and `useState(false)`. -/
def initialSession : UploadSession :=
  { selectedFile := none, imagePreview := none, analysisResult := none,
    isLoading := false, error := none }

/-- Observable side effects of a handler: starting a `FileReader` read of
a file (which yields the preview/transport encodings) and issuing the
analysis network call for a file. -/
inductive Ev where
  | fileRead (f : File)
  | netCall (f : File)
deriving DecidableEq

/-- Error message set by `handleFileChange` for a non-image file. -/
def invalidTypeMessage : String := "Please select an image file"

/-- Error message set by `handleAnalyze` when no file is selected. -/
def noFileMessage : String := "Please select an image first"

/-- Error message set when `analyzeFoodImage` rejects. -/
def analyzeFailureMessage : String := "Failed to analyze image. Please try again."

/-- Embedding of `handleFileChange`.  The argument models
`event.target.files && event.target.files[0]`: `none` when the event
carries no file, `some file` otherwise.  The handler first clears the
error; with no file it does nothing else; a non-image file only sets the
error; a valid file is stored, read for preview, and the previous
analysis result is reset.  The `FileReader.onload` completion that stores
the preview is modelled as part of the same step. -/
def handleFileChange (files : Option File) (s : UploadSession) :
    UploadSession × List Ev :=
  let s0 := { s with error := none }
  match files with
  | none => (s0, [])
  | some file =>
    if !(jsStartsWith file.type "image/") then
      ({ s0 with error := some invalidTypeMessage }, [])
    else
      ({ s0 with selectedFile := some file,
                 imagePreview := some (readAsDataURL file),
                 analysisResult := none },
       [Ev.fileRead file])

/-- Embedding of the synchronous half of `handleAnalyze`, up to the
`await`: with no selected file it only sets the error; otherwise it sets
the loading flag, clears the error and issues the network call. -/
def handleAnalyzeStart (s : UploadSession) : UploadSession × List Ev :=
  match s.selectedFile with
  | none => ({ s with error := some noFileMessage }, [])
  | some f => ({ s with isLoading := true, error := none }, [Ev.netCall f])

/-- Embedding of the resumption of `handleAnalyze` after
`analyzeFoodImage` resolves: on success the result is stored, on
rejection the catch block stores the failure message; the `finally`
block clears the loading flag in both cases. -/
def handleAnalyzeResolve (outcome : Except Unit FoodAnalysisResponse)
    (s : UploadSession) : UploadSession :=
  match outcome with
  | Except.ok r => { s with analysisResult := some r, isLoading := false }
  | Except.error _ =>
    { s with error := some analyzeFailureMessage, isLoading := false }

/-- Labelled transition relation of the upload session: a file-selection
event (with or without a file), the synchronous start of an analysis, or
the resolution of the in-flight analysis (only available while the
loading flag is set, since the flag is set exactly while a call is
outstanding). -/
inductive Step : UploadSession → List Ev → UploadSession → Prop where
  | selectFile (files : Option File) (s : UploadSession) :
      Step s (handleFileChange files s).2 (handleFileChange files s).1
  | analyzeStart (s : UploadSession) :
      Step s (handleAnalyzeStart s).2 (handleAnalyzeStart s).1
  | analyzeResolve (outcome : Except Unit FoodAnalysisResponse)
      (s : UploadSession) (h : s.isLoading = true) :
      Step s [] (handleAnalyzeResolve outcome s)

/-- Sessions reachable from the initial session. -/
inductive Reachable : UploadSession → Prop where
  | init : Reachable initialSession
  | step {s t : UploadSession} {evs : List Ev} :
      Reachable s → Step s evs t → Reachable t

/-- The four-valued pending state of the spec's §3.  The source has no
such variable; it is derived here from §3's presence constraints: the
loading flag drives `Loading`, a stored result marks `Succeeded`, a
stored error marks `Failed`, and otherwise the session is `Idle`. -/
inductive PendingState where
  | Idle
  | Loading
  | Succeeded
  | Failed
deriving DecidableEq

/-- Derived pending state of a session. -/
def pendingState (s : UploadSession) : PendingState :=
  if s.isLoading then PendingState.Loading
  else if s.analysisResult.isSome then PendingState.Succeeded
  else if s.error.isSome then PendingState.Failed
  else PendingState.Idle

/-! ## Chart data transforms -/

/-- One labelled bar of a chart (`name`/`value`/`fill` object literal). -/
structure ChartDatum where
  name : String
  value : Rat
  fill : String
deriving DecidableEq

/-- Embedding of `prepareNutritionData`; its free variable
`analysisResult` is passed explicitly. -/
def prepareNutritionData (analysisResult : Option FoodAnalysisResponse) :
    List ChartDatum :=
  match analysisResult with
  | none => []
  | some a =>
    [ { name := "Carbs", value := a.nutritionalInfo.carbohydrates, fill := "#4CAF50" },
      { name := "Protein", value := a.nutritionalInfo.protein, fill := "#2E7D32" },
      { name := "Total Fat", value := a.nutritionalInfo.fats.total, fill := "#81C784" },
      { name := "Fiber", value := a.nutritionalInfo.fiber, fill := "#A5D6A7" },
      { name := "Sugar", value := a.nutritionalInfo.sugar, fill := "#C8E6C9" } ]

/-- Embedding of `prepareFatsData`; its free variable `analysisResult`
is passed explicitly. -/
def prepareFatsData (analysisResult : Option FoodAnalysisResponse) :
    List ChartDatum :=
  match analysisResult with
  | none => []
  | some a =>
    [ { name := "Saturated", value := a.nutritionalInfo.fats.saturated, fill := "#FFA726" },
      { name := "Unsaturated", value := a.nutritionalInfo.fats.unsaturated, fill := "#66BB6A" },
      { name := "Trans", value := a.nutritionalInfo.fats.trans, fill := "#EF5350" } ]

/-! ## Concrete fixtures used by witnesses and counterexamples -/

/-- A small valid JPEG-typed file. -/
def exampleImage : File := { type := "image/jpeg", bytes := [255, 216, 255, 224] }

/-- A second, distinct valid image file. -/
def exampleImage2 : File := { type := "image/png", bytes := [137, 80, 78, 71] }

/-- A text file, rejected by the image check. -/
def exampleTextFile : File := { type := "text/plain", bytes := [104, 105] }

/-- The concrete analysis record of the spec's end-to-end scenario A. -/
def exampleAnalysis : FoodAnalysisResponse :=
  { calories := 350
    contents := ["grilled chicken", "rice", "broccoli"]
    nutritionalInfo :=
      { fats := { total := 8, saturated := 2, unsaturated := 5, trans := 1 }
        protein := 30, carbohydrates := 40, sugar := 3, fiber := 5 }
    healthAssessment :=
      { isHealthy := true
        recommendedConsumption := "Suitable as a main meal"
        warnings := []
        benefits := ["High protein"] } }

/-- A session as it stands after a successful analysis of the example
image. -/
def exampleSessionWithResult : UploadSession :=
  { selectedFile := some exampleImage
    imagePreview := some (readAsDataURL exampleImage)
    analysisResult := some exampleAnalysis
    isLoading := false
    error := none }

/-- Session after selecting the example image from the initial session
(first step of the C5 counterexample run). -/
def c5AfterSelect : UploadSession :=
  (handleFileChange (some exampleImage) initialSession).1

/-- Session after starting the analysis (second step of the C5
counterexample run): the loading flag is now set. -/
def c5Loading : UploadSession := (handleAnalyzeStart c5AfterSelect).1

/-- Session after the first of the two successive selections, performed
while the analysis is still in flight. -/
def c5FirstReselect : UploadSession :=
  (handleFileChange (some exampleImage2) c5Loading).1

/-- Session after the second of the two successive selections. -/
def c5SecondReselect : UploadSession :=
  (handleFileChange (some exampleImage) c5FirstReselect).1

/-- Session after a full successful analysis of the example image
(select, start, resolve with the scenario-A record). -/
def c1Succeeded : UploadSession :=
  handleAnalyzeResolve (Except.ok exampleAnalysis)
    (handleAnalyzeStart (handleFileChange (some exampleImage) initialSession).1).1

/-- Session after re-starting the analysis from the succeeded session. -/
def c1Reloading : UploadSession := (handleAnalyzeStart c1Succeeded).1

/-- Session after the re-started analysis fails: the catch block sets the
error message but never clears the previously stored result. -/
def c1BothPresent : UploadSession :=
  handleAnalyzeResolve (Except.error ()) c1Reloading

/-- Reply content that is valid JSON but not the `NutritionAnalysis`
shape. -/
def wrongShapeContent : String := "\x7b\"hello\": 1\x7d"

/-- A resolved API reply whose `choices[0].message.content` is valid JSON
of the wrong shape. -/
def wrongShapeReply : Json :=
  Json.obj [("choices", Json.arr [Json.obj [("message",
    Json.obj [("content", Json.str wrongShapeContent)])]])]

/-- Reply content for the spec's end-to-end scenario A record. -/
def scenarioAContent : String :=
  "\x7b\"calories\": 350, \"contents\": [\"grilled chicken\", \"rice\", \"broccoli\"], \"nutritionalInfo\": \x7b\"fats\": \x7b\"total\": 8, \"saturated\": 2, \"unsaturated\": 5, \"trans\": 1\x7d, \"protein\": 30, \"carbohydrates\": 40, \"sugar\": 3, \"fiber\": 5\x7d, \"healthAssessment\": \x7b\"isHealthy\": true, \"recommendedConsumption\": \"Suitable as a main meal\", \"warnings\": [], \"benefits\": [\"High protein\"]\x7d\x7d"

/-- A resolved API reply carrying the scenario-A record as its content
string. -/
def scenarioAReply : Json :=
  Json.obj [("choices", Json.arr [Json.obj [("message",
    Json.obj [("content", Json.str scenarioAContent)])]])]

/-- The JSON value that `scenarioAContent` parses to, written out
explicitly. -/
def scenarioAJson : Json :=
  Json.obj [
    ("calories", Json.num 350),
    ("contents", Json.arr [Json.str "grilled chicken", Json.str "rice",
      Json.str "broccoli"]),
    ("nutritionalInfo", Json.obj [
      ("fats", Json.obj [("total", Json.num 8), ("saturated", Json.num 2),
        ("unsaturated", Json.num 5), ("trans", Json.num 1)]),
      ("protein", Json.num 30), ("carbohydrates", Json.num 40),
      ("sugar", Json.num 3), ("fiber", Json.num 5)]),
    ("healthAssessment", Json.obj [
      ("isHealthy", Json.bool true),
      ("recommendedConsumption", Json.str "Suitable as a main meal"),
      ("warnings", Json.arr []),
      ("benefits", Json.arr [Json.str "High protein"])])]

/-! ## Helper invariants -/

/-- While no file is selected, no analysis has ever been started, so the
loading flag is clear: the selected file is never removed once set, and
the flag is only raised by a start with a file present. -/
theorem loading_clear_of_no_file {s : UploadSession} (hr : Reachable s)
    (hnone : s.selectedFile = none) : s.isLoading = false := by
  induction hr with
  | init => rfl
  | step hr hstep ih =>
    cases hstep with
    | selectFile files u =>
      cases files with
      | none =>
        simp only [handleFileChange] at hnone ⊢
        exact ih hnone
      | some file =>
        by_cases hft : jsStartsWith file.type "image/"
        · simp [handleFileChange, hft] at hnone
        · simp only [handleFileChange, hft, Bool.not_false, if_pos] at hnone ⊢
          exact ih hnone
    | analyzeStart =>
      rename_i u
      cases hsel : u.selectedFile with
      | none =>
        simp only [handleAnalyzeStart, hsel] at hnone ⊢
        exact ih hsel
      | some f =>
        simp [handleAnalyzeStart, hsel] at hnone
    | analyzeResolve outcome u h =>
      cases outcome with
      | ok r => rfl
      | error e => rfl

/-! ## Claim theorems -/

/-- C3: for every well-formed `NutritionAnalysis`, `prepareNutritionData`
returns exactly 5 labelled values in the fixed order Carbs, Protein,
Total Fat, Fiber, Sugar and `prepareFatsData` exactly 3 in the order
Saturated, Unsaturated, Trans, each value equal to the corresponding
input field exactly; with no analysis available both return the empty
list. -/
theorem c3_chart_series_shape :
    (∀ a : FoodAnalysisResponse,
      (prepareNutritionData (some a)).length = 5 ∧
      (prepareNutritionData (some a)).map ChartDatum.name =
        ["Carbs", "Protein", "Total Fat", "Fiber", "Sugar"] ∧
      (prepareNutritionData (some a)).map ChartDatum.value =
        [a.nutritionalInfo.carbohydrates, a.nutritionalInfo.protein,
         a.nutritionalInfo.fats.total, a.nutritionalInfo.fiber,
         a.nutritionalInfo.sugar] ∧
      (prepareFatsData (some a)).length = 3 ∧
      (prepareFatsData (some a)).map ChartDatum.name =
        ["Saturated", "Unsaturated", "Trans"] ∧
      (prepareFatsData (some a)).map ChartDatum.value =
        [a.nutritionalInfo.fats.saturated, a.nutritionalInfo.fats.unsaturated,
         a.nutritionalInfo.fats.trans]) ∧
    prepareNutritionData none = [] ∧ prepareFatsData none = [] := by
  refine ⟨fun a => ?_, rfl, rfl⟩
  simp [prepareNutritionData, prepareFatsData]

/-- C7: every resolution of the analysis call clears the loading flag —
on success the result is stored, on failure the error is stored, and in
both cases the session leaves the Loading state. -/
theorem c7_loading_cleared_on_resolve :
    ∀ s : UploadSession,
      (∀ r : FoodAnalysisResponse,
        (handleAnalyzeResolve (Except.ok r) s).isLoading = false ∧
        (handleAnalyzeResolve (Except.ok r) s).analysisResult = some r) ∧
      (∀ e : Unit,
        (handleAnalyzeResolve (Except.error e) s).isLoading = false ∧
        (handleAnalyzeResolve (Except.error e) s).error =
          some analyzeFailureMessage) := by
  intro s
  exact ⟨fun r => ⟨rfl, rfl⟩, fun e => ⟨rfl, rfl⟩⟩

/-- C10: a file-selection event that delivers no file clears any existing
error message and leaves every other session field unchanged, and
performs no file read and no network call. -/
theorem c10_no_file_clears_error_only :
    ∀ s : UploadSession,
      (handleFileChange none s).1 = { s with error := none } ∧
      (handleFileChange none s).2 = [] := by
  intro s
  exact ⟨rfl, rfl⟩

/-- C8: invoking `startAnalysis` with no file selected sets the
"no file selected" error message, leaves every other field (including
the loading flag) unchanged, makes no network call, and — since on every
reachable session with no selected file the loading flag is already
clear — does not enter the Loading state. -/
theorem c8_start_without_file :
    ∀ s : UploadSession, s.selectedFile = none →
      (handleAnalyzeStart s).1 = { s with error := some noFileMessage } ∧
      (handleAnalyzeStart s).2 = [] ∧
      (handleAnalyzeStart s).1.isLoading = s.isLoading ∧
      (Reachable s → (handleAnalyzeStart s).1.isLoading = false) := by
  intro s hnone
  refine ⟨?_, ?_, ?_, ?_⟩
  · simp [handleAnalyzeStart, hnone]
  · simp [handleAnalyzeStart, hnone]
  · simp [handleAnalyzeStart, hnone]
  · intro hr
    have := loading_clear_of_no_file hr hnone
    simp [handleAnalyzeStart, hnone, this]

/-- C8 witness: the initial session has no selected file, and starting an
analysis there only sets the error message. -/
theorem c8_start_without_file_witness :
    (handleAnalyzeStart initialSession).1 =
      { initialSession with error := some noFileMessage } ∧
    (handleAnalyzeStart initialSession).2 = [] ∧
    (handleAnalyzeStart initialSession).1.isLoading = initialSession.isLoading ∧
    (handleAnalyzeStart initialSession).1.isLoading = false :=
  have h := c8_start_without_file initialSession rfl
  ⟨h.1, h.2.1, h.2.2.1, h.2.2.2 Reachable.init⟩

/-- C6: selecting a file whose declared media type does not begin with
`image/` sets the type-rejection error message immediately and changes
nothing else: the loading flag, stored result, selected file and preview
are untouched (so no analysis begins and the session stays out of the
Loading state), no file read produces a preview or transport encoding
from the rejected file, and no network call is made. -/
theorem c6_non_image_rejected :
    ∀ (s : UploadSession) (f : File), jsStartsWith f.type "image/" = false →
      (handleFileChange (some f) s).1 =
        { s with error := some invalidTypeMessage } ∧
      (handleFileChange (some f) s).2 = [] ∧
      (handleFileChange (some f) s).1.isLoading = s.isLoading ∧
      (handleFileChange (some f) s).1.analysisResult = s.analysisResult := by
  intro s f h
  refine ⟨?_, ?_, ?_, ?_⟩ <;> simp [handleFileChange, h]

/-- C6 witness: selecting the text file from the initial session sets
only the rejection message. -/
theorem c6_non_image_rejected_witness :
    (handleFileChange (some exampleTextFile) initialSession).1 =
      { initialSession with error := some invalidTypeMessage } ∧
    (handleFileChange (some exampleTextFile) initialSession).2 = [] ∧
    (handleFileChange (some exampleTextFile) initialSession).1.isLoading =
      initialSession.isLoading ∧
    (handleFileChange (some exampleTextFile) initialSession).1.analysisResult =
      initialSession.analysisResult :=
  c6_non_image_rejected initialSession exampleTextFile (by decide)

/-- C9: selecting a non-image file leaves the previously stored selected
file, preview and analysis result unchanged and only sets the error
message; in particular, when an image was selected before, a subsequent
`startAnalysis` still runs on the old image (the loading flag is raised
and the network call carries the old file). -/
theorem c9_non_image_preserves_old_state :
    ∀ (s : UploadSession) (f : File), jsStartsWith f.type "image/" = false →
      ((handleFileChange (some f) s).1.selectedFile = s.selectedFile ∧
       (handleFileChange (some f) s).1.imagePreview = s.imagePreview ∧
       (handleFileChange (some f) s).1.analysisResult = s.analysisResult ∧
       (handleFileChange (some f) s).1.error = some invalidTypeMessage ∧
       (handleFileChange (some f) s).2 = []) ∧
      (∀ g : File, s.selectedFile = some g →
        (handleAnalyzeStart (handleFileChange (some f) s).1).1.isLoading = true ∧
        (handleAnalyzeStart (handleFileChange (some f) s).1).2 = [Ev.netCall g]) := by
  intro s f h
  constructor
  · refine ⟨?_, ?_, ?_, ?_, ?_⟩ <;> simp [handleFileChange, h]
  · intro g hg
    constructor <;> simp [handleFileChange, handleAnalyzeStart, h, hg]

/-- C9 witness: from a session holding a successful analysis of the
example image, selecting the text file keeps the image, its preview and
the result, sets the rejection message, and analysis can still start on
the old image. -/
theorem c9_non_image_preserves_old_state_witness :
    ((handleFileChange (some exampleTextFile) exampleSessionWithResult).1.selectedFile =
        exampleSessionWithResult.selectedFile ∧
     (handleFileChange (some exampleTextFile) exampleSessionWithResult).1.imagePreview =
        exampleSessionWithResult.imagePreview ∧
     (handleFileChange (some exampleTextFile) exampleSessionWithResult).1.analysisResult =
        exampleSessionWithResult.analysisResult ∧
     (handleFileChange (some exampleTextFile) exampleSessionWithResult).1.error =
        some invalidTypeMessage ∧
     (handleFileChange (some exampleTextFile) exampleSessionWithResult).2 = []) ∧
    ((handleAnalyzeStart
        (handleFileChange (some exampleTextFile) exampleSessionWithResult).1).1.isLoading = true ∧
     (handleAnalyzeStart
        (handleFileChange (some exampleTextFile) exampleSessionWithResult).1).2 =
        [Ev.netCall exampleImage]) :=
  have h := c9_non_image_preserves_old_state exampleSessionWithResult
    exampleTextFile (by decide)
  ⟨h.1, h.2 exampleImage rfl⟩

/-- C5 counterexample: the claim's "selecting a new file ... resets
pendingState to Idle" fails on a reachable run.  Selecting twice in
succession with two different valid files while an analysis is in flight
does clear `result`/`errorMessage` and retains only the second file's
data, but `handleFileChange` never touches the loading flag, so the
session is still Loading, not Idle. -/
theorem c5_counterexample :
    Reachable c5SecondReselect ∧
    c5SecondReselect.analysisResult = none ∧
    c5SecondReselect.error = none ∧
    c5SecondReselect.selectedFile = some exampleImage ∧
    c5SecondReselect.imagePreview = some (readAsDataURL exampleImage) ∧
    c5SecondReselect.isLoading = true ∧
    pendingState c5SecondReselect ≠ PendingState.Idle := by
  refine ⟨?_, by decide, by decide, by decide, by decide, by decide, by decide⟩
  have h1 : Reachable c5AfterSelect :=
    Reachable.step Reachable.init (Step.selectFile (some exampleImage) initialSession)
  have h2 : Reachable c5Loading :=
    Reachable.step h1 (Step.analyzeStart c5AfterSelect)
  have h3 : Reachable c5FirstReselect :=
    Reachable.step h2 (Step.selectFile (some exampleImage2) c5Loading)
  exact Reachable.step h3 (Step.selectFile (some exampleImage) c5FirstReselect)

/-- C5 amended: selecting a new valid file always clears `result` and
`errorMessage` and leaves the loading flag untouched; in particular,
invoking `selectFile` twice in succession with two valid files retains
only the second file's data, and when no analysis is in flight the
session is then Idle. -/
theorem c5_amended_double_select :
    ∀ (s : UploadSession) (f1 f2 : File),
      jsStartsWith f1.type "image/" = true →
      jsStartsWith f2.type "image/" = true →
      (handleFileChange (some f2) (handleFileChange (some f1) s).1).1.analysisResult = none ∧
      (handleFileChange (some f2) (handleFileChange (some f1) s).1).1.error = none ∧
      (handleFileChange (some f2) (handleFileChange (some f1) s).1).1.selectedFile = some f2 ∧
      (handleFileChange (some f2) (handleFileChange (some f1) s).1).1.imagePreview =
        some (readAsDataURL f2) ∧
      (handleFileChange (some f2) (handleFileChange (some f1) s).1).1.isLoading = s.isLoading ∧
      (s.isLoading = false →
        pendingState (handleFileChange (some f2) (handleFileChange (some f1) s).1).1 =
          PendingState.Idle) := by
  intro s f1 f2 h1 h2
  refine ⟨?_, ?_, ?_, ?_, ?_, ?_⟩ <;>
    simp [handleFileChange, h1, h2, pendingState]

/-- C5 amended witness: double selection from the initial session (where
no analysis is in flight) ends Idle with the second file retained. -/
theorem c5_amended_double_select_witness :
    (handleFileChange (some exampleImage2)
      (handleFileChange (some exampleImage) initialSession).1).1.analysisResult = none ∧
    (handleFileChange (some exampleImage2)
      (handleFileChange (some exampleImage) initialSession).1).1.error = none ∧
    (handleFileChange (some exampleImage2)
      (handleFileChange (some exampleImage) initialSession).1).1.selectedFile =
      some exampleImage2 ∧
    (handleFileChange (some exampleImage2)
      (handleFileChange (some exampleImage) initialSession).1).1.imagePreview =
      some (readAsDataURL exampleImage2) ∧
    (handleFileChange (some exampleImage2)
      (handleFileChange (some exampleImage) initialSession).1).1.isLoading =
      initialSession.isLoading ∧
    pendingState (handleFileChange (some exampleImage2)
      (handleFileChange (some exampleImage) initialSession).1).1 =
      PendingState.Idle :=
  have h := c5_amended_double_select initialSession exampleImage exampleImage2
    (by decide) (by decide)
  ⟨h.1, h.2.1, h.2.2.1, h.2.2.2.1, h.2.2.2.2.1, h.2.2.2.2.2 rfl⟩

/-- C1 counterexample: the mutual-exclusion invariant fails on a
reachable session.  After a successful analysis, re-running the analysis
and having it fail stores the failure message while the old result is
still present, so `result` and `errorMessage` coexist (and `result` is
present while the derived pending state is Failed-or-Succeeded rather
than uniquely Succeeded). -/
theorem c1_counterexample :
    Reachable c1BothPresent ∧
    c1BothPresent.analysisResult = some exampleAnalysis ∧
    c1BothPresent.error = some analyzeFailureMessage ∧
    ¬(c1BothPresent.analysisResult.isSome = true ↔
        c1BothPresent.error.isSome = false) := by
  refine ⟨?_, by decide, by decide, by decide⟩
  have h1 : Reachable (handleFileChange (some exampleImage) initialSession).1 :=
    Reachable.step Reachable.init (Step.selectFile (some exampleImage) initialSession)
  have h2 : Reachable
      (handleAnalyzeStart (handleFileChange (some exampleImage) initialSession).1).1 :=
    Reachable.step h1
      (Step.analyzeStart (handleFileChange (some exampleImage) initialSession).1)
  have h3 : Reachable c1Succeeded :=
    Reachable.step h2
      (Step.analyzeResolve (Except.ok exampleAnalysis)
        (handleAnalyzeStart (handleFileChange (some exampleImage) initialSession).1).1
        (by decide))
  have h4 : Reachable c1Reloading :=
    Reachable.step h3 (Step.analyzeStart c1Succeeded)
  exact Reachable.step h4
    (Step.analyzeResolve (Except.error ()) c1Reloading (by decide))

/-- C1 amended: mutual exclusion of `result` and `errorMessage` holds
along every flow in which the analysis attempt starts from a fresh valid
selection: selecting a valid file clears both, starting the analysis
keeps both absent, and the resolution of that attempt leaves exactly one
of them present — the result exactly on success, the failure message
exactly on failure.  (It is not a global reachable-state invariant: an
analysis failure, or an invalid selection, while an old result is stored
sets `errorMessage` without clearing `result`.) -/
theorem c1_amended_fresh_flow_exclusion :
    ∀ (s : UploadSession) (f : File) (o : Except Unit FoodAnalysisResponse),
      jsStartsWith f.type "image/" = true →
      ((handleFileChange (some f) s).1.analysisResult = none ∧
       (handleFileChange (some f) s).1.error = none) ∧
      ((handleAnalyzeStart (handleFileChange (some f) s).1).1.analysisResult = none ∧
       (handleAnalyzeStart (handleFileChange (some f) s).1).1.error = none) ∧
      ((handleAnalyzeResolve o
          (handleAnalyzeStart (handleFileChange (some f) s).1).1).analysisResult.isSome =
        !(handleAnalyzeResolve o
            (handleAnalyzeStart (handleFileChange (some f) s).1).1).error.isSome) ∧
      (∀ r, o = Except.ok r →
        (handleAnalyzeResolve o
          (handleAnalyzeStart (handleFileChange (some f) s).1).1).analysisResult = some r ∧
        (handleAnalyzeResolve o
          (handleAnalyzeStart (handleFileChange (some f) s).1).1).error = none) ∧
      (∀ e, o = Except.error e →
        (handleAnalyzeResolve o
          (handleAnalyzeStart (handleFileChange (some f) s).1).1).analysisResult = none ∧
        (handleAnalyzeResolve o
          (handleAnalyzeStart (handleFileChange (some f) s).1).1).error =
          some analyzeFailureMessage) := by
  intro s f o h
  cases o with
  | ok r =>
    refine ⟨⟨?_, ?_⟩, ⟨?_, ?_⟩, ?_, ?_, ?_⟩ <;>
      simp [handleFileChange, handleAnalyzeStart, handleAnalyzeResolve, h]
  | error e =>
    refine ⟨⟨?_, ?_⟩, ⟨?_, ?_⟩, ?_, ?_, ?_⟩ <;>
      simp [handleFileChange, handleAnalyzeStart, handleAnalyzeResolve, h]

/-- C1 amended witness: the fresh flow from the initial session with the
example image, resolved successfully with the scenario-A record, ends
with the result present and the error absent. -/
theorem c1_amended_fresh_flow_exclusion_witness :
    ((handleFileChange (some exampleImage) initialSession).1.analysisResult = none ∧
     (handleFileChange (some exampleImage) initialSession).1.error = none) ∧
    ((handleAnalyzeStart
        (handleFileChange (some exampleImage) initialSession).1).1.analysisResult = none ∧
     (handleAnalyzeStart
        (handleFileChange (some exampleImage) initialSession).1).1.error = none) ∧
    ((handleAnalyzeResolve (Except.ok exampleAnalysis)
        (handleAnalyzeStart
          (handleFileChange (some exampleImage) initialSession).1).1).analysisResult.isSome =
      !(handleAnalyzeResolve (Except.ok exampleAnalysis)
          (handleAnalyzeStart
            (handleFileChange (some exampleImage) initialSession).1).1).error.isSome) ∧
    ((handleAnalyzeResolve (Except.ok exampleAnalysis)
        (handleAnalyzeStart
          (handleFileChange (some exampleImage) initialSession).1).1).analysisResult =
      some exampleAnalysis ∧
     (handleAnalyzeResolve (Except.ok exampleAnalysis)
        (handleAnalyzeStart
          (handleFileChange (some exampleImage) initialSession).1).1).error = none) :=
  have h := c1_amended_fresh_flow_exclusion initialSession exampleImage
    (Except.ok exampleAnalysis) (by decide)
  ⟨h.1, h.2.1, h.2.2.1, h.2.2.2.1 exampleAnalysis rfl⟩

/-- Characters produced by `b64Char` are alphabet characters or the
default, never a comma. -/
theorem b64Char_ne_comma (n : Nat) : b64Char n ≠ ',' := by
  unfold b64Char
  cases h : b64Alpha.get? n with
  | none => decide
  | some c =>
    have hc : c ∈ b64Alpha := List.get?_mem h
    have hall : ∀ x ∈ b64Alpha, x ≠ ',' := by decide
    exact hall c hc

/-- The base64 payload never contains a comma. -/
theorem base64Encode_ne_comma :
    ∀ (bs : List Nat), ∀ c ∈ base64Encode bs, c ≠ ',' := by
  intro bs
  induction bs using base64Encode.induct with
  | case1 => intro c hc; simp [base64Encode] at hc
  | case2 b1 =>
    intro c hc
    simp only [base64Encode, List.mem_cons, List.not_mem_nil, or_false] at hc
    rcases hc with h | h | h | h <;> subst h
    · exact b64Char_ne_comma _
    · exact b64Char_ne_comma _
    · decide
    · decide
  | case3 b1 b2 =>
    intro c hc
    simp only [base64Encode, List.mem_cons, List.not_mem_nil, or_false] at hc
    rcases hc with h | h | h | h <;> subst h
    · exact b64Char_ne_comma _
    · exact b64Char_ne_comma _
    · exact b64Char_ne_comma _
    · decide
  | case4 b1 b2 b3 rest ih =>
    intro c hc
    simp only [base64Encode, List.mem_cons] at hc
    rcases hc with h | h | h | h | h
    · subst h; exact b64Char_ne_comma _
    · subst h; exact b64Char_ne_comma _
    · subst h; exact b64Char_ne_comma _
    · subst h; exact b64Char_ne_comma _
    · exact ih c h

/-- A well-formed media type contains no comma. -/
theorem mimeWf_ne_comma {t : String} (h : mimeWf t = true) :
    ∀ c ∈ t.data, c ≠ ',' := by
  intro c hc hcomma
  subst hcomma
  have := List.all_eq_true.mp h ',' hc
  simp at this

/-- Model of `split` on a separator-free list: one segment. -/
theorem jsSplit_no_sep {sep : Char} :
    ∀ (b : List Char), (∀ c ∈ b, c ≠ sep) → jsSplit sep b = [b] := by
  intro b
  induction b with
  | nil => intro _; rfl
  | cons c t ih =>
    intro h
    have hc : c ≠ sep := h c (by simp)
    have ht := ih (fun x hx => h x (by simp [hx]))
    simp [jsSplit, hc, ht]

/-- Model of `split` across the first separator occurrence. -/
theorem jsSplit_append {sep : Char} (b : List Char) :
    ∀ (a : List Char), (∀ c ∈ a, c ≠ sep) →
      jsSplit sep (a ++ sep :: b) = a :: jsSplit sep b := by
  intro a
  induction a with
  | nil => intro _; simp [jsSplit]
  | cons c t ih =>
    intro h
    have hc : c ≠ sep := h c (by simp)
    have ht := ih (fun x hx => h x (by simp [hx]))
    simp [jsSplit, hc, ht]

/-- Dropping up to the first comma skips exactly a comma-free block. -/
theorem dropWhile_to_comma (b : List Char) :
    ∀ (a : List Char), (∀ c ∈ a, c ≠ ',') →
      (a ++ ',' :: b).dropWhile (fun c => c != ',') = ',' :: b := by
  intro a
  induction a with
  | nil => intro _; simp [List.dropWhile]
  | cons c t ih =>
    intro h
    have hc : c ≠ ',' := h c (by simp)
    have hcb : (c != ',') = true := by simp [hc]
    have ht := ih (fun x hx => h x (by simp [hx]))
    simp [List.dropWhile, hcb, ht]

/-- C4: for every valid image file (with a well-formed media type per the
File API), the transport encoding `fileToBase64` equals the preview
data-URL produced by the same read with the prefix up to and including
the first comma removed: the two encodings agree on the pixel payload. -/
theorem c4_transport_equals_preview_payload :
    ∀ f : File, jsStartsWith f.type "image/" = true → mimeWf f.type = true →
      fileToBase64 f = some (afterFirstComma (readAsDataURL f)) := by
  intro f hv hwf
  have hd : ∀ x ∈ ("data:".data : List Char), x ≠ ',' := by decide
  have hb : ∀ x ∈ (";base64".data : List Char), x ≠ ',' := by decide
  have hpre : ∀ c ∈ ("data:".data ++ f.type.data ++ ";base64".data), c ≠ ',' := by
    intro c hc
    rcases List.mem_append.mp hc with hc1 | hc1
    · rcases List.mem_append.mp hc1 with hc2 | hc2
      · exact hd c hc2
      · exact mimeWf_ne_comma hwf c hc2
    · exact hb c hc1
  have hpay : ∀ c ∈ base64Encode f.bytes, c ≠ ',' := base64Encode_ne_comma f.bytes
  have hdata : (readAsDataURL f).data =
      ("data:".data ++ f.type.data ++ ";base64".data) ++ ',' :: base64Encode f.bytes := rfl
  unfold fileToBase64 afterFirstComma
  rw [hdata, jsSplit_append _ _ hpre, jsSplit_no_sep _ hpay,
    dropWhile_to_comma _ _ hpre]
  simp

/-- C4 witness: the example JPEG file's transport encoding equals its
preview data-URL after the first comma. -/
theorem c4_transport_equals_preview_payload_witness :
    jsStartsWith exampleImage.type "image/" = true ∧
    mimeWf exampleImage.type = true ∧
    fileToBase64 exampleImage = some (afterFirstComma (readAsDataURL exampleImage)) :=
  ⟨by decide, by decide,
    c4_transport_equals_preview_payload exampleImage (by decide) (by decide)⟩

/-- C2 counterexample: the claim says the operation fails whenever the
reply body cannot be parsed as the `NutritionAnalysis` record of §3, but
the source validates nothing beyond `JSON.parse`: on a reply whose
content is valid JSON of the wrong shape the operation succeeds, while
the §3 decoder rejects the very value it returned. -/
theorem c2_counterexample :
    (analyzeFoodImage exampleImage (Except.ok wrongShapeReply)).isOk = true ∧
    (analyzeFoodImage exampleImage (Except.ok wrongShapeReply)).toOption.bind
      decodeNutrition = none := by
  constructor
  · rfl
  · rfl

/-- C2 amended: the operation fails with the single undifferentiated
`AnalysisError` exactly when the HTTP/network call fails, when the reply
lacks a string at the fixed path `choices[0].message.content`, or when
that string is not valid JSON; whenever the string does parse, the
parsed JSON value is returned as-is, with no validation against the
`NutritionAnalysis` shape. -/
theorem c2_failure_taxonomy :
    ∀ (f : File) (net : Except Unit Json),
      ((analyzeFoodImage f net).isOk = false ↔
        (net = Except.error () ∨
          ∃ d, net = Except.ok d ∧
            (extractContent d = none ∨
              ∃ c, extractContent d = some c ∧ jsonParse c = none))) ∧
      (∀ d c, net = Except.ok d → extractContent d = some c →
        (jsonParse c).isSome = true →
        ∃ j, jsonParse c = some j ∧ analyzeFoodImage f net = Except.ok j) := by
  intro f net
  cases net with
  | error e =>
    cases e
    refine ⟨⟨fun _ => Or.inl rfl, fun _ => rfl⟩, ?_⟩
    intro d c hd
    exact absurd hd (by simp)
  | ok data =>
    constructor
    · cases hc : extractContent data with
      | none =>
        simp only [analyzeFoodImage, hc]
        exact ⟨fun _ => Or.inr ⟨data, rfl, Or.inl hc⟩, fun _ => rfl⟩
      | some content =>
        cases hj : jsonParse content with
        | none =>
          simp only [analyzeFoodImage, hc, hj]
          exact ⟨fun _ => Or.inr ⟨data, rfl, Or.inr ⟨content, hc, hj⟩⟩,
            fun _ => rfl⟩
        | some j =>
          simp only [analyzeFoodImage, hc, hj]
          constructor
          · intro hfalse
            exact Bool.noConfusion hfalse
          · rintro (h | ⟨d, hd, h | ⟨c, hcc, hcn⟩⟩)
            · exact absurd h (by simp)
            · cases hd
              rw [hc] at h
              exact absurd h (by simp)
            · cases hd
              rw [hc] at hcc
              cases hcc
              rw [hj] at hcn
              exact absurd hcn (by simp)
    · intro d c hd hcontent hsome
      cases hd
      cases hj : jsonParse c with
      | none =>
        rw [hj] at hsome
        exact absurd hsome (by simp)
      | some j =>
        refine ⟨j, rfl, ?_⟩
        simp only [analyzeFoodImage, hcontent, hj]

set_option maxRecDepth 100000 in
/-- C2 amended witness: a resolved reply carrying the scenario-A JSON
string succeeds, returning exactly the value its content parses to. -/
theorem c2_failure_taxonomy_witness :
    jsonParse scenarioAContent = some scenarioAJson ∧
    analyzeFoodImage exampleImage (Except.ok scenarioAReply) =
      Except.ok scenarioAJson := by
  obtain ⟨j, hj, hok⟩ :=
    (c2_failure_taxonomy exampleImage (Except.ok scenarioAReply)).2
      scenarioAReply scenarioAContent rfl rfl rfl
  have h0 : jsonParse scenarioAContent = some scenarioAJson := rfl
  rw [h0] at hj
  cases hj
  exact ⟨h0, hok⟩

end EatAlyzer
